import Mathlib

/-!
Verification of the purchase-order lifecycle engine (`PO/po_handler.py`).

The relational store is embedded as lists of rows; SQL statements become
explicit list operations (filter / map / flatMap / mergeSort), pandas null
checks become `Option`, and Python truthiness in `x or d` is modelled by
`pyOrInt` / `pyOrRat`.  Timestamps are `Int`; numeric prices are `Rat`.
-/

/-- A row of the `PurchaseOrders` table (column names kept). -/
structure PORow where
  poid : Nat
  supplierid : Option Int
  orderdate : Int
  expecteddelivery : Option Int
  status : String
  respondedat : Option Int
  actualdelivery : Option Int
  createdby : String
  supproposeddeliver : Option Int
  suppliernote : Option String
  originalpoid : Option Nat
  approval : String
deriving DecidableEq

/-- A row of the `PurchaseOrderItems` table. -/
structure POItemRow where
  poid : Nat
  itemid : Nat
  orderedquantity : Option Int
  estimatedprice : Option Rat
  receivedquantity : Int
  supproposedquantity : Option Int
  supproposedprice : Option Rat
  approval : String
deriving DecidableEq

/-- A row of the `Supplier` table. -/
structure SupplierRow where
  supplierid : Int
  suppliername : String
deriving DecidableEq

/-- A row of the `Item` catalog table. -/
structure ItemRow where
  itemid : Nat
  itemnameenglish : String
  itempicture : String
  averagerequired : Option Int
deriving DecidableEq

/-- One entry of the `items` list argument of `create_manual_po`:
a dict with `item_id`, `quantity`, optional `estimated_price`, and
`item_approval` (the Python `.get` default "pending" is supplied by
callers in this model). -/
structure NewItem where
  item_id : Nat
  quantity : Int
  estimated_price : Option Rat
  item_approval : String
deriving DecidableEq

/-- The relational store: the four tables plus the id sequence backing
`RETURNING poid` on insert. -/
structure Store where
  orders : List PORow
  items : List POItemRow
  suppliers : List SupplierRow
  catalog : List ItemRow
  nextPoid : Nat
deriving DecidableEq

/-- The fixed approval set checked by the asserts in `update_po_approval`
and `update_poitem_approval`. -/
def validApprovals : List String := ["pending", "approved", "rejected"]

/-- The four archived statuses appearing in both listing queries. -/
def archivedStatuses : List String :=
  ["Completed", "Declined", "Declined by AMAS", "Declined by Supplier"]

/-- Python `x or d` for an optional integer: `None` and `0` are falsy. -/
def pyOrInt (x : Option Int) (d : Int) : Int :=
  match x with
  | none => d
  | some v => if v = 0 then d else v

/-- Python `x or d` for an optional numeric: `None` and `0.0` are falsy. -/
def pyOrRat (x : Option Rat) (d : Rat) : Rat :=
  match x with
  | none => d
  | some v => if v = 0 then d else v

/-- Effective quantity of one item row inside `accept_proposed_po`:
`int(row["supproposedquantity"]) if pd.notnull(...) else
int(row.get("orderedquantity") or 1)`. -/
def resolve_qty (row : POItemRow) : Int :=
  match row.supproposedquantity with
  | some q => q
  | none => pyOrInt row.orderedquantity 1

/-- Effective price of one item row inside `accept_proposed_po`:
`float(row["supproposedprice"]) if pd.notnull(...) else
float(row.get("estimatedprice") or 0.0)`. -/
def resolve_price (row : POItemRow) : Rat :=
  match row.supproposedprice with
  | some p => p
  | none => pyOrRat row.estimatedprice 0

/-- Modelled from the spec: the `INSERT INTO purchaseorders` statement lists
only (supplierid, expecteddelivery, createdby, originalpoid, approval); the
table DDL is not in the repository, so the remaining columns take the
defaults the spec states — status `Pending` at creation, order timestamp set
at creation (`now`), all other columns NULL. -/
def newOrderRow (poid : Nat) (now : Int) (supplier_id : Option Int)
    (expected_delivery : Option Int) (created_by : String)
    (original_poid : Option Nat) (approval : String) : PORow :=
  { poid := poid
    supplierid := supplier_id
    orderdate := now
    expecteddelivery := expected_delivery
    status := "Pending"
    respondedat := none
    actualdelivery := none
    createdby := created_by
    supproposeddeliver := none
    suppliernote := none
    originalpoid := original_poid
    approval := approval }

/-- One row of the `INSERT INTO purchaseorderitems` batch built in
`create_manual_po`: `(po_id, item_id, quantity, estimated_price, 0,
item_approval)`; `supproposedquantity` and `supproposedprice` are not in the
column list and default to NULL. -/
def newItemRow (poid : Nat) (it : NewItem) : POItemRow :=
  { poid := poid
    itemid := it.item_id
    orderedquantity := some it.quantity
    estimatedprice := it.estimated_price
    receivedquantity := 0
    supproposedquantity := none
    supproposedprice := none
    approval := it.item_approval }

/-- Embedding of `create_manual_po`: inserts the order row (returning the generated poid)
and the batch of item rows, all inside one transaction; this is the
success path (no persistence failure). -/
def create_manual_po (s : Store) (now : Int) (supplier_id : Option Int)
    (expected_delivery : Option Int) (items : List NewItem) (created_by : String)
    (original_poid : Option Nat) (approval : String) : Nat × Store :=
  let po_id := s.nextPoid
  (po_id,
    { s with
      orders := s.orders ++
        [newOrderRow po_id now supplier_id expected_delivery created_by
          original_poid approval]
      items := s.items ++ items.map (newItemRow po_id)
      nextPoid := s.nextPoid + 1 })

/-- Sequential item-row inserts of the `execute_values` batch, numbered from
`k`; a persistence failure at write index `failAt` aborts the transaction
(`none`). -/
def insertItemsSeq (s : Store) (rows : List POItemRow) (k : Nat)
    (failAt : Option Nat) : Option Store :=
  match rows with
  | [] => some s
  | r :: rest =>
    if failAt = some k then none
    else insertItemsSeq { s with items := s.items ++ [r] } rest (k + 1) failAt

/-- Embedding of `create_manual_po` with an explicit persistence-failure oracle: write 0
is the order-row insert, write `i + 1` the i-th item row.  All writes run
inside the single `with self.conn` transaction block, so a failure at any
write rolls the whole transaction back and the caller observes the original
store (transaction-scoped atomicity is the store contract the spec assumes
of the connection layer). -/
def create_manual_po_run (s : Store) (now : Int) (supplier_id : Option Int)
    (expected_delivery : Option Int) (items : List NewItem) (created_by : String)
    (original_poid : Option Nat) (approval : String) (failAt : Option Nat) :
    Option Nat × Store :=
  if failAt = some 0 then (none, s)
  else
    let po_id := s.nextPoid
    let s1 :=
      { s with
        orders := s.orders ++
          [newOrderRow po_id now supplier_id expected_delivery created_by
            original_poid approval]
        nextPoid := s.nextPoid + 1 }
    match insertItemsSeq s1 (items.map (newItemRow po_id)) 1 failAt with
    | none => (none, s)
    | some s2 => (some po_id, s2)

/-- The SQL `UPDATE PurchaseOrders SET Status = st WHERE POID = id`. -/
def updateStatus (s : Store) (id : Nat) (st : String) : Store :=
  { s with
    orders := s.orders.map fun o =>
      if o.poid == id then { o with status := st } else o }

/-- Embedding of `update_po_status_to_received`: sets status to Received and
ActualDelivery to the current timestamp on the matching row. -/
def update_po_status_to_received (s : Store) (now : Int) (poid : Nat) : Store :=
  { s with
    orders := s.orders.map fun o =>
      if o.poid == poid then
        { o with status := "Received", actualdelivery := some now }
      else o }

/-- Embedding of `update_po_approval`: the assert on the approval value runs before any
storage access; an invalid value raises (`none`) with the store untouched,
a valid one runs the UPDATE. -/
def update_po_approval (s : Store) (poid : Nat) (approval : String) :
    Option Store :=
  if approval ∈ validApprovals then
    some
      { s with
        orders := s.orders.map fun o =>
          if o.poid == poid then { o with approval := approval } else o }
  else none

/-- Embedding of `update_poitem_approval`: same assert-then-UPDATE shape on the item
table, keyed by (poid, itemid). -/
def update_poitem_approval (s : Store) (poid : Nat) (item_id : Nat)
    (approval : String) : Option Store :=
  if approval ∈ validApprovals then
    some
      { s with
        items := s.items.map fun it =>
          if it.poid == poid && it.itemid == item_id then
            { it with approval := approval }
          else it }
  else none

/-- Embedding of `accept_proposed_po`: fetch the order (first row matching the id; `None`
sentinel when absent), fetch its items, resolve quantities and prices,
clone via `create_manual_po` with the original supplier, the
supplier-proposed delivery date, the original creator, `originalpoid` = the
source id and the source approval, then mark the source
`Accepted by AMAS`. -/
def accept_proposed_po (s : Store) (now : Int) (proposed_po_id : Nat) :
    Option Nat × Store :=
  match s.orders.find? (fun o => o.poid == proposed_po_id) with
  | none => (none, s)
  | some po_info =>
    let items_info := s.items.filter fun r => r.poid == proposed_po_id
    let new_items := items_info.map fun row =>
      { item_id := row.itemid
        quantity := resolve_qty row
        estimated_price := some (resolve_price row)
        item_approval := row.approval : NewItem }
    let res := create_manual_po s now po_info.supplierid
      po_info.supproposeddeliver new_items po_info.createdby
      (some proposed_po_id) po_info.approval
    (some res.1, updateStatus res.2 proposed_po_id "Accepted by AMAS")

/-- Embedding of `decline_proposed_po`: the single status UPDATE to `Declined by AMAS`. -/
def decline_proposed_po (s : Store) (proposed_po_id : Nat) : Store :=
  updateStatus s proposed_po_id "Declined by AMAS"

/-- Embedding of `modify_proposed_po`: fetch the order (`None` sentinel when absent),
clone via `create_manual_po` with the caller-supplied delivery date and
item list, `created_by` = the caller's email, the original supplier and
approval, then mark the source `Modified by AMAS`. -/
def modify_proposed_po (s : Store) (now : Int) (proposed_po_id : Nat)
    (new_delivery_date : Option Int) (new_items : List NewItem)
    (user_email : String) : Option Nat × Store :=
  match s.orders.find? (fun o => o.poid == proposed_po_id) with
  | none => (none, s)
  | some po_info =>
    let res := create_manual_po s now po_info.supplierid new_delivery_date
      new_items user_email (some proposed_po_id) po_info.approval
    (some res.1, updateStatus res.2 proposed_po_id "Modified by AMAS")

/-- The joined tuples contributed by one order row: the SQL
`FROM PurchaseOrders po JOIN Supplier s ON po.SupplierID = s.SupplierID
JOIN PurchaseOrderItems poi ON po.POID = poi.POID
JOIN Item i ON poi.ItemID = i.ItemID` shared by both listing queries
(a NULL supplierid matches no supplier row). -/
def joinRowsFor (st : Store) (po : PORow) :
    List (PORow × SupplierRow × POItemRow × ItemRow) :=
  (st.suppliers.filter fun s => po.supplierid == some s.supplierid).flatMap
    fun s =>
      (st.items.filter fun poi => poi.poid == po.poid).flatMap fun poi =>
        (st.catalog.filter fun i => i.itemid == poi.itemid).map fun i =>
          (po, s, poi, i)

/-- All joined tuples of the listing queries. -/
def joinRows (st : Store) : List (PORow × SupplierRow × POItemRow × ItemRow) :=
  st.orders.flatMap (joinRowsFor st)

/-- The column list selected by `get_all_purchase_orders`. -/
structure ActiveRow where
  poid : Nat
  supplierid : Option Int
  orderdate : Int
  expecteddelivery : Option Int
  status : String
  respondedat : Option Int
  actualdelivery : Option Int
  createdby : String
  sup_proposeddeliver : Option Int
  suppliernote : Option String
  originalpoid : Option Nat
  po_approval : String
  suppliername : String
  itemid : Nat
  orderedquantity : Option Int
  estimatedprice : Option Rat
  receivedquantity : Int
  supproposedquantity : Option Int
  supproposedprice : Option Rat
  item_approval : String
  itemnameenglish : String
  itempicture : String
deriving DecidableEq

/-- The column list selected by `get_archived_purchase_orders`. -/
structure ArchivedRow where
  poid : Nat
  supplierid : Option Int
  orderdate : Int
  expecteddelivery : Option Int
  status : String
  respondedat : Option Int
  actualdelivery : Option Int
  createdby : String
  suppliernote : Option String
  po_approval : String
  suppliername : String
  itemid : Nat
  orderedquantity : Option Int
  estimatedprice : Option Rat
  receivedquantity : Int
  item_approval : String
  itemnameenglish : String
  itempicture : String
deriving DecidableEq

/-- Projection of one joined tuple onto the active listing columns. -/
def projActive (t : PORow × SupplierRow × POItemRow × ItemRow) : ActiveRow :=
  { poid := t.1.poid
    supplierid := t.1.supplierid
    orderdate := t.1.orderdate
    expecteddelivery := t.1.expecteddelivery
    status := t.1.status
    respondedat := t.1.respondedat
    actualdelivery := t.1.actualdelivery
    createdby := t.1.createdby
    sup_proposeddeliver := t.1.supproposeddeliver
    suppliernote := t.1.suppliernote
    originalpoid := t.1.originalpoid
    po_approval := t.1.approval
    suppliername := t.2.1.suppliername
    itemid := t.2.2.1.itemid
    orderedquantity := t.2.2.1.orderedquantity
    estimatedprice := t.2.2.1.estimatedprice
    receivedquantity := t.2.2.1.receivedquantity
    supproposedquantity := t.2.2.1.supproposedquantity
    supproposedprice := t.2.2.1.supproposedprice
    item_approval := t.2.2.1.approval
    itemnameenglish := t.2.2.2.itemnameenglish
    itempicture := t.2.2.2.itempicture }

/-- Projection of one joined tuple onto the archived listing columns. -/
def projArchived (t : PORow × SupplierRow × POItemRow × ItemRow) :
    ArchivedRow :=
  { poid := t.1.poid
    supplierid := t.1.supplierid
    orderdate := t.1.orderdate
    expecteddelivery := t.1.expecteddelivery
    status := t.1.status
    respondedat := t.1.respondedat
    actualdelivery := t.1.actualdelivery
    createdby := t.1.createdby
    suppliernote := t.1.suppliernote
    po_approval := t.1.approval
    suppliername := t.2.1.suppliername
    itemid := t.2.2.1.itemid
    orderedquantity := t.2.2.1.orderedquantity
    estimatedprice := t.2.2.1.estimatedprice
    receivedquantity := t.2.2.1.receivedquantity
    item_approval := t.2.2.1.approval
    itemnameenglish := t.2.2.2.itemnameenglish
    itempicture := t.2.2.2.itempicture }

/-- The comparator of `ORDER BY po.OrderDate DESC`. -/
def dateDescLe (a b : PORow × SupplierRow × POItemRow × ItemRow) : Bool :=
  decide (b.1.orderdate ≤ a.1.orderdate)

/-- Embedding of `get_all_purchase_orders`: join, keep statuses NOT IN the archived set,
order by order date descending, project the selected columns. -/
def get_all_purchase_orders (st : Store) : List ActiveRow :=
  ((((joinRows st).filter fun t =>
      !(archivedStatuses.contains t.1.status)).mergeSort dateDescLe).map
    projActive)

/-- Embedding of `get_archived_purchase_orders`: join, keep statuses IN the archived set,
order by order date descending, project the selected columns. -/
def get_archived_purchase_orders (st : Store) : List ArchivedRow :=
  ((((joinRows st).filter fun t =>
      archivedStatuses.contains t.1.status).mergeSort dateDescLe).map
    projArchived)

/-- Membership of an order id in the active listing. -/
def containsOrderActive (rows : List ActiveRow) (id : Nat) : Prop :=
  ∃ r ∈ rows, r.poid = id

/-- Membership of an order id in the archived listing. -/
def containsOrderArchived (rows : List ArchivedRow) (id : Nat) : Prop :=
  ∃ r ∈ rows, r.poid = id

/-- Store well-formedness used by the lifecycle theorems: every stored order
and item row carries a poid below the id sequence. -/
def WFStore (s : Store) : Prop :=
  (∀ o ∈ s.orders, o.poid < s.nextPoid) ∧ ∀ it ∈ s.items, it.poid < s.nextPoid

/-- All PurchaseOrders columns except `status` agree. -/
def agreesExceptStatus (a b : PORow) : Prop :=
  a.poid = b.poid ∧ a.supplierid = b.supplierid ∧ a.orderdate = b.orderdate ∧
  a.expecteddelivery = b.expecteddelivery ∧ a.respondedat = b.respondedat ∧
  a.actualdelivery = b.actualdelivery ∧ a.createdby = b.createdby ∧
  a.supproposeddeliver = b.supproposeddeliver ∧
  a.suppliernote = b.suppliernote ∧ a.originalpoid = b.originalpoid ∧
  a.approval = b.approval

/-! Concrete rows and stores used by witnesses and counterexamples. -/

/-- The empty store. -/
def store0 : Store := { orders := [], items := [], suppliers := [], catalog := [], nextPoid := 1 }

/-- An item row whose `orderedquantity` is present but zero, with no supplier
counter-proposal. -/
def itemC2 : POItemRow :=
  { poid := 1, itemid := 4, orderedquantity := some 0, estimatedprice := none,
    receivedquantity := 0, supproposedquantity := none, supproposedprice := none,
    approval := "pending" }

/-- An item row with a supplier-proposed quantity and an estimated price. -/
def itemW2 : POItemRow :=
  { poid := 1, itemid := 4, orderedquantity := some 3, estimatedprice := some 3,
    receivedquantity := 0, supproposedquantity := some 5, supproposedprice := none,
    approval := "pending" }

/-- A pending order row, id 5. -/
def poB : PORow :=
  { poid := 5, supplierid := some 7, orderdate := 0, expecteddelivery := none,
    status := "Pending", respondedat := none, actualdelivery := none,
    createdby := "amas", supproposeddeliver := some 9, suppliernote := none,
    originalpoid := none, approval := "approved" }

/-- An item row of order 5 with a supplier-proposed quantity. -/
def itB : POItemRow :=
  { poid := 5, itemid := 3, orderedquantity := some 2, estimatedprice := some 1,
    receivedquantity := 0, supproposedquantity := some 4, supproposedprice := none,
    approval := "pending" }

/-- A one-order one-item store. -/
def storeB : Store :=
  { orders := [poB], items := [itB], suppliers := [], catalog := [], nextPoid := 6 }

/-- A new-item argument used by the `create_manual_po` witnesses. -/
def newItemW : NewItem :=
  { item_id := 3, quantity := 2, estimated_price := some 1, item_approval := "pending" }

/-- Source order for the modify counterexample: created by alice. -/
def poM : PORow :=
  { poid := 1, supplierid := some 7, orderdate := 0, expecteddelivery := none,
    status := "Pending", respondedat := none, actualdelivery := none,
    createdby := "alice", supproposeddeliver := none, suppliernote := none,
    originalpoid := none, approval := "approved" }

/-- Store holding only alice's order. -/
def storeM : Store :=
  { orders := [poM], items := [], suppliers := [], catalog := [], nextPoid := 2 }

/-- A pending order that has a supplier but zero item rows. -/
def poP : PORow :=
  { poid := 1, supplierid := some 5, orderdate := 0, expecteddelivery := none,
    status := "Pending", respondedat := none, actualdelivery := none,
    createdby := "amas", supproposeddeliver := none, suppliernote := none,
    originalpoid := none, approval := "pending" }

/-- Supplier row 5. -/
def supP : SupplierRow := { supplierid := 5, suppliername := "S" }

/-- Store with a Pending order carrying zero item rows. -/
def storeP : Store :=
  { orders := [poP], items := [], suppliers := [supP], catalog := [], nextPoid := 2 }

/-- A pending order used by the listing witnesses. -/
def poJ : PORow :=
  { poid := 1, supplierid := some 5, orderdate := 10, expecteddelivery := none,
    status := "Pending", respondedat := none, actualdelivery := none,
    createdby := "amas", supproposeddeliver := none, suppliernote := none,
    originalpoid := none, approval := "pending" }

/-- Item row of order 1 referencing catalog item 3. -/
def itJ : POItemRow :=
  { poid := 1, itemid := 3, orderedquantity := some 2, estimatedprice := some 1,
    receivedquantity := 0, supproposedquantity := none, supproposedprice := none,
    approval := "pending" }

/-- Catalog entry 3. -/
def itemJ : ItemRow :=
  { itemid := 3, itemnameenglish := "N", itempicture := "P", averagerequired := none }

/-- Store where order 1 joins one supplier, one item row and one catalog
entry. -/
def storeJ : Store :=
  { orders := [poJ], items := [itJ], suppliers := [supP], catalog := [itemJ],
    nextPoid := 2 }

/-! Helper lemmas. -/

theorem contains_true_iff_mem {l : List String} {a : String} :
    l.contains a = true ↔ a ∈ l := by
  rw [List.contains_iff_exists_mem_beq]
  constructor
  · rintro ⟨b, hb, he⟩
    rw [beq_iff_eq] at he
    rwa [he]
  · intro h
    exact ⟨a, h, by simp⟩

theorem map_if_update_idem {α : Type} (p : α → Bool) (g : α → α)
    (hp : ∀ a, p (g a) = p a) (hg : ∀ a, g (g a) = g a) (l : List α) :
    ((l.map fun a => if p a then g a else a).map fun a => if p a then g a else a)
      = l.map fun a => if p a then g a else a := by
  induction l with
  | nil => rfl
  | cons a l ih =>
    simp only [List.map_cons, ih]
    by_cases h : p a = true
    · simp [h, hp, hg]
    · simp [h]

theorem insertItemsSeq_eq_some {rows : List POItemRow} :
    ∀ {s : Store} {k : Nat} {failAt : Option Nat} {s2 : Store},
      insertItemsSeq s rows k failAt = some s2 →
      s2 = { s with items := s.items ++ rows } := by
  induction rows with
  | nil =>
    intro s k failAt s2 h
    simp only [insertItemsSeq, Option.some.injEq] at h
    simp [← h]
  | cons r rest ih =>
    intro s k failAt s2 h
    simp only [insertItemsSeq] at h
    split at h
    · exact absurd h (by simp)
    · have := ih h
      simpa [List.append_assoc] using this

theorem insertItemsSeq_noFail {rows : List POItemRow} :
    ∀ {s : Store} {k : Nat},
      insertItemsSeq s rows k none = some { s with items := s.items ++ rows } := by
  induction rows with
  | nil => intro s k; simp [insertItemsSeq]
  | cons r rest ih =>
    intro s k
    simp only [insertItemsSeq, reduceCtorEq, if_false]
    rw [ih]
    simp [List.append_assoc]

theorem insertItemsSeq_fail {rows : List POItemRow} :
    ∀ {s : Store} {k j : Nat}, k ≤ j → j < k + rows.length →
      insertItemsSeq s rows k (some j) = none := by
  induction rows with
  | nil =>
    intro s k j h1 h2
    simp at h2
    omega
  | cons r rest ih =>
    intro s k j h1 h2
    simp only [insertItemsSeq]
    by_cases hjk : j = k
    · simp [hjk]
    · rw [if_neg (show ¬(some j = some k) by simp [hjk])]
      exact ih (by omega) (by simp only [List.length_cons] at h2; omega)

/-! Claim theorems. -/

/-- C2 counterexample: with the supplier-proposed quantity absent and the
ordered quantity present but equal to 0, the effective quantity is 1, not
the ordered quantity. -/
theorem resolve_qty_zero_ordered_cx :
    itemC2.supproposedquantity = none ∧ itemC2.orderedquantity = some 0 ∧
    resolve_qty itemC2 = 1 ∧ resolve_qty itemC2 ≠ 0 := by
  refine ⟨rfl, rfl, rfl, by decide⟩

/-- C2 (amended): effective quantity is the supplier-proposed quantity when
present, else the ordered quantity when present and nonzero, else 1 (Python
truthiness also maps an ordered quantity of 0 to the default 1); effective
price is the supplier-proposed price when present, else the estimated price
when present, else 0. -/
theorem resolution_policy (r : POItemRow) :
    (∀ q, r.supproposedquantity = some q → resolve_qty r = q) ∧
    (r.supproposedquantity = none → ∀ q, r.orderedquantity = some q → q ≠ 0 →
      resolve_qty r = q) ∧
    (r.supproposedquantity = none →
      (r.orderedquantity = none ∨ r.orderedquantity = some 0) →
      resolve_qty r = 1) ∧
    (∀ p, r.supproposedprice = some p → resolve_price r = p) ∧
    (r.supproposedprice = none → ∀ p, r.estimatedprice = some p →
      resolve_price r = p) ∧
    (r.supproposedprice = none → r.estimatedprice = none →
      resolve_price r = 0) := by
  refine ⟨?_, ?_, ?_, ?_, ?_, ?_⟩
  · intro q h
    simp [resolve_qty, h]
  · intro h q hq hne
    simp [resolve_qty, h, pyOrInt, hq, hne]
  · intro h hq
    rcases hq with hq | hq <;> simp [resolve_qty, h, pyOrInt, hq]
  · intro p h
    simp [resolve_price, h]
  · intro h p hp
    simp only [resolve_price, h, pyOrRat, hp]
    split <;> simp_all
  · intro h hp
    simp [resolve_price, h, pyOrRat, hp]

/-- C2 witness: a supplier-proposed quantity of 5 wins over the ordered
quantity, and an estimated price of 3 is used when no price was proposed. -/
theorem resolution_policy_witness :
    resolve_qty itemW2 = 5 ∧ resolve_price itemW2 = 3 :=
  ⟨(resolution_policy itemW2).1 5 rfl,
    (resolution_policy itemW2).2.2.2.2.1 rfl 3 rfl⟩

/-- C4: when no order with the given id exists, both accept and modify
return the `none` sentinel and leave the store exactly as it was: no new
order rows, no new item rows, no status change. -/
theorem accept_modify_not_found (s : Store) (now : Int) (id : Nat)
    (nd : Option Int) (nit : List NewItem) (ue : String)
    (h : ∀ o ∈ s.orders, o.poid ≠ id) :
    accept_proposed_po s now id = (none, s) ∧
    modify_proposed_po s now id nd nit ue = (none, s) := by
  have hf : s.orders.find? (fun o => o.poid == id) = none := by
    rw [List.find?_eq_none]
    intro o ho
    simpa using h o ho
  constructor <;> simp [accept_proposed_po, modify_proposed_po, hf]

/-- C4 witness: accept and modify against the empty store are no-op
sentinels. -/
theorem accept_modify_not_found_witness :
    accept_proposed_po store0 0 1 = (none, store0) ∧
    modify_proposed_po store0 0 1 none [] "u" = (none, store0) :=
  accept_modify_not_found store0 0 1 none [] "u" (by decide)

/-- C7: an approval value outside {pending, approved, rejected} makes both
approval updates fail with no store produced, while a value inside the set
succeeds, and applying the same update twice yields the same stored state
as applying it once. -/
theorem approval_validation (s : Store) (poid item_id : Nat) (v : String) :
    (v ∉ validApprovals →
      update_po_approval s poid v = none ∧
      update_poitem_approval s poid item_id v = none) ∧
    (v ∈ validApprovals →
      ∃ s2, update_po_approval s poid v = some s2 ∧
        update_po_approval s2 poid v = some s2) ∧
    (v ∈ validApprovals →
      ∃ s2, update_poitem_approval s poid item_id v = some s2 ∧
        update_poitem_approval s2 poid item_id v = some s2) := by
  refine ⟨?_, ?_, ?_⟩
  · intro h
    constructor <;> simp [update_po_approval, update_poitem_approval, h]
  · intro h
    have hmap := map_if_update_idem (fun o => o.poid == poid)
      (fun o => { o with approval := v }) (fun o => rfl) (fun o => rfl) s.orders
    refine ⟨{ s with orders := s.orders.map fun o =>
        if o.poid == poid then { o with approval := v } else o }, ?_, ?_⟩
    · simp [update_po_approval, h]
    · simp only [update_po_approval, if_pos h, Option.some.injEq]
      exact congrArg (fun l => ({ s with orders := l } : Store)) hmap
  · intro h
    have hmap := map_if_update_idem
      (fun it => it.poid == poid && it.itemid == item_id)
      (fun it => { it with approval := v }) (fun it => rfl) (fun it => rfl) s.items
    refine ⟨{ s with items := s.items.map fun it =>
        if it.poid == poid && it.itemid == item_id then
          { it with approval := v }
        else it }, ?_, ?_⟩
    · simp [update_poitem_approval, h]
    · simp only [update_poitem_approval, if_pos h, Option.some.injEq]
      exact congrArg (fun l => ({ s with items := l } : Store)) hmap

/-- C7 witness: "maybe" is rejected with no store produced; "approved"
succeeds and is idempotent on a concrete store. -/
theorem approval_validation_witness :
    update_po_approval storeB 5 "maybe" = none ∧
    ∃ s2, update_po_approval storeB 5 "approved" = some s2 ∧
      update_po_approval s2 5 "approved" = some s2 :=
  ⟨((approval_validation storeB 5 3 "maybe").1 (by decide)).1,
    (approval_validation storeB 5 3 "approved").2.1 (by decide)⟩

theorem map_if_no_match {α : Type} (p : α → Bool) (f : α → α) (l : List α)
    (hl : ∀ a ∈ l, p a = false) :
    (l.map fun a => if p a then f a else a) = l := by
  induction l with
  | nil => rfl
  | cons a t ih =>
    simp only [List.map_cons]
    rw [if_neg (by simp [hl a (List.mem_cons_self a t)])]
    rw [ih fun x hx => hl x (List.mem_cons_of_mem a hx)]

/-- C8 counterexample: on the empty store, the mark-received and both
approval updates complete as silent successes with the store unchanged —
no failure is signalled for the absent target row. -/
theorem update_missing_row_silent_cx :
    update_po_approval store0 1 "approved" = some store0 ∧
    update_poitem_approval store0 1 2 "approved" = some store0 ∧
    update_po_status_to_received store0 0 1 = store0 := by
  refine ⟨?_, ?_, rfl⟩ <;> simp [update_po_approval, update_poitem_approval,
    validApprovals, store0]

/-- C8 (amended): when the target row is absent the UPDATE matches zero rows
and each call completes successfully as a no-op on an unchanged store;
failure is signalled only for an invalid approval value, not for a missing
row. -/
theorem update_missing_row_noop (s : Store) (now : Int) (id item_id : Nat)
    (v : String) (hv : v ∈ validApprovals)
    (h : ∀ o ∈ s.orders, o.poid ≠ id)
    (hi : ∀ it ∈ s.items, it.poid ≠ id) :
    update_po_status_to_received s now id = s ∧
    update_po_approval s id v = some s ∧
    update_poitem_approval s id item_id v = some s := by
  have hbo : ∀ o ∈ s.orders, (o.poid == id) = false := by
    intro o ho
    simp [h o ho]
  have hbi : ∀ it ∈ s.items, (it.poid == id && it.itemid == item_id) = false := by
    intro it hit
    simp [hi it hit]
  refine ⟨?_, ?_, ?_⟩
  · simp only [update_po_status_to_received]
    rw [map_if_no_match _ _ _ hbo]
  · simp only [update_po_approval, if_pos hv, Option.some.injEq]
    rw [map_if_no_match _ _ _ hbo]
  · simp only [update_poitem_approval, if_pos hv, Option.some.injEq]
    rw [map_if_no_match _ _ _ hbi]

/-- C8 witness: updates aimed at id 1 leave the store holding only order 5
untouched and report success. -/
theorem update_missing_row_noop_witness :
    update_po_status_to_received storeB 0 1 = storeB ∧
    update_po_approval storeB 1 "approved" = some storeB ∧
    update_poitem_approval storeB 1 3 "approved" = some storeB :=
  update_missing_row_noop storeB 0 1 3 "approved" (by decide) (by decide)
    (by decide)

/-- C6: decline updates only the status field of the rows matching the id:
the order-row count, the item table, the supplier and catalog tables and the
id sequence are unchanged, and every order row keeps every column except
status, which becomes Declined by AMAS exactly on the matching rows. -/
theorem decline_row_preserving (s : Store) (id : Nat) :
    (decline_proposed_po s id).orders.length = s.orders.length ∧
    (decline_proposed_po s id).items = s.items ∧
    (decline_proposed_po s id).suppliers = s.suppliers ∧
    (decline_proposed_po s id).catalog = s.catalog ∧
    (decline_proposed_po s id).nextPoid = s.nextPoid ∧
    ∀ i : Fin s.orders.length,
      ∃ hi : (i : Nat) < (decline_proposed_po s id).orders.length,
        agreesExceptStatus ((decline_proposed_po s id).orders.get ⟨i, hi⟩)
          (s.orders.get i) ∧
        ((decline_proposed_po s id).orders.get ⟨i, hi⟩).status =
          (if (s.orders.get i).poid = id then "Declined by AMAS"
           else (s.orders.get i).status) := by
  refine ⟨by simp [decline_proposed_po, updateStatus], rfl, rfl, rfl, rfl, ?_⟩
  intro i
  have hlen : (decline_proposed_po s id).orders.length = s.orders.length := by
    simp [decline_proposed_po, updateStatus]
  refine ⟨by rw [hlen]; exact i.isLt, ?_⟩
  have hget : (decline_proposed_po s id).orders.get ⟨(i : Nat), by rw [hlen]; exact i.isLt⟩ =
      if (s.orders.get i).poid == id then
        { s.orders.get i with status := "Declined by AMAS" }
      else s.orders.get i := by
    simp [decline_proposed_po, updateStatus]
  rw [hget]
  simp only [List.get_eq_getElem]
  by_cases hcase : s.orders[(i : Nat)].poid = id
  · simp [hcase, agreesExceptStatus]
  · simp [hcase, agreesExceptStatus]

/-- C3: createOrder is atomic under the persistence-failure oracle: a
failure at any write index of the multi-row batch yields the sentinel with
the caller's store unchanged (zero new rows), every run either leaves the
store unchanged or commits the order row together with the complete item
batch, and the failure-free run commits exactly that. -/
theorem createOrder_atomic (s : Store) (now : Int) (sid : Option Int)
    (ed : Option Int) (its : List NewItem) (cb : String) (opid : Option Nat)
    (ap : String) (failAt : Option Nat) :
    (∀ k, failAt = some k → k ≤ its.length →
      create_manual_po_run s now sid ed its cb opid ap failAt = (none, s)) ∧
    (create_manual_po_run s now sid ed its cb opid ap failAt = (none, s) ∨
      create_manual_po_run s now sid ed its cb opid ap failAt =
        (some s.nextPoid,
          { s with
            orders := s.orders ++ [newOrderRow s.nextPoid now sid ed cb opid ap]
            items := s.items ++ its.map (newItemRow s.nextPoid)
            nextPoid := s.nextPoid + 1 })) ∧
    (failAt = none →
      create_manual_po_run s now sid ed its cb opid ap failAt =
        (some s.nextPoid,
          { s with
            orders := s.orders ++ [newOrderRow s.nextPoid now sid ed cb opid ap]
            items := s.items ++ its.map (newItemRow s.nextPoid)
            nextPoid := s.nextPoid + 1 })) := by
  refine ⟨?_, ?_, ?_⟩
  · intro k hk hkle
    subst hk
    by_cases hk0 : k = 0
    · subst hk0
      simp [create_manual_po_run]
    · simp only [create_manual_po_run]
      rw [if_neg (show ¬(some k = some 0) by simp [hk0])]
      rw [insertItemsSeq_fail (show 1 ≤ k by omega)
        (show k < 1 + (its.map (newItemRow s.nextPoid)).length by
          simp only [List.length_map]; omega)]
  · simp only [create_manual_po_run]
    split
    · left; rfl
    · split
      · left; rfl
      · rename_i s2 heq
        right
        rw [insertItemsSeq_eq_some heq]
  · intro hf
    subst hf
    simp only [create_manual_po_run, insertItemsSeq_noFail, reduceCtorEq,
      if_false]

/-- C3 witness: on a concrete one-item batch, a failure at the item write
leaves the empty store empty, and the failure-free run commits both rows. -/
theorem createOrder_atomic_witness :
    create_manual_po_run store0 0 none none [newItemW] "u" none "pending"
        (some 1) = (none, store0) ∧
    create_manual_po_run store0 0 none none [newItemW] "u" none "pending"
        none =
      (some store0.nextPoid,
        { store0 with
          orders := store0.orders ++
            [newOrderRow store0.nextPoid 0 none none "u" none "pending"]
          items := store0.items ++ [newItemW].map (newItemRow store0.nextPoid)
          nextPoid := store0.nextPoid + 1 }) :=
  ⟨(createOrder_atomic store0 0 none none [newItemW] "u" none "pending"
      (some 1)).1 1 rfl (by decide),
    (createOrder_atomic store0 0 none none [newItemW] "u" none "pending"
      none).2.2 rfl⟩

/-- C1: accepting an existing proposed order returns a fresh id distinct
from the source id; the new order row carries the original supplier, the
original supplier-proposed delivery date as expected delivery, the original
creator, `originalpoid` = the source id and the source approval; the new
order's item rows are exactly the resolved items; and afterwards every row
with the source id has status Accepted by AMAS. -/
theorem accept_clones_and_closes (s : Store) (now : Int) (id : Nat)
    (po : PORow) (hwf : WFStore s)
    (hfind : s.orders.find? (fun o => o.poid == id) = some po) :
    ∃ newId s2, accept_proposed_po s now id = (some newId, s2) ∧
      newId ≠ id ∧
      (∃ r ∈ s2.orders, r.poid = newId ∧ r.supplierid = po.supplierid ∧
        r.expecteddelivery = po.supproposeddeliver ∧
        r.createdby = po.createdby ∧ r.originalpoid = some id ∧
        r.approval = po.approval) ∧
      (s2.items.filter fun it => it.poid == newId) =
        ((s.items.filter fun it => it.poid == id).map fun row =>
          newItemRow newId
            { item_id := row.itemid, quantity := resolve_qty row,
              estimated_price := some (resolve_price row),
              item_approval := row.approval }) ∧
      (∀ o ∈ s2.orders, o.poid = id → o.status = "Accepted by AMAS") := by
  have hmem : po ∈ s.orders := List.mem_of_find?_eq_some hfind
  have hpid : po.poid = id := by simpa using List.find?_some hfind
  have hlt : id < s.nextPoid := hpid ▸ hwf.1 po hmem
  have hne : s.nextPoid ≠ id := by omega
  have hbne : (s.nextPoid == id) = false := by simp [hne]
  have hacc : accept_proposed_po s now id =
      (some s.nextPoid,
        { s with
          orders := (s.orders ++
            [newOrderRow s.nextPoid now po.supplierid po.supproposeddeliver
              po.createdby (some id) po.approval]).map fun o =>
                if o.poid == id then { o with status := "Accepted by AMAS" }
                else o
          items := s.items ++
            (((s.items.filter fun it => it.poid == id).map fun row =>
              ({ item_id := row.itemid, quantity := resolve_qty row,
                 estimated_price := some (resolve_price row),
                 item_approval := row.approval } : NewItem)).map
              (newItemRow s.nextPoid))
          nextPoid := s.nextPoid + 1 }) := by
    simp only [accept_proposed_po, hfind, create_manual_po, updateStatus,
      List.map_map]
  refine ⟨s.nextPoid, _, hacc, hne, ?_, ?_, ?_⟩
  · refine ⟨newOrderRow s.nextPoid now po.supplierid po.supproposeddeliver
      po.createdby (some id) po.approval, ?_, rfl, rfl, rfl, rfl, rfl, rfl⟩
    rw [List.map_append]
    refine List.mem_append_right _ ?_
    simp only [List.map_cons, List.map_nil]
    rw [if_neg (by simp [newOrderRow, hne])]
    exact List.mem_singleton.mpr rfl
  · rw [List.filter_append]
    have h1 : (s.items.filter fun it => it.poid == s.nextPoid) = [] := by
      rw [List.filter_eq_nil_iff]
      intro it hit
      have := hwf.2 it hit
      simp
      omega
    have h2 : ((((s.items.filter fun it => it.poid == id).map fun row =>
        ({ item_id := row.itemid, quantity := resolve_qty row,
           estimated_price := some (resolve_price row),
           item_approval := row.approval } : NewItem)).map
          (newItemRow s.nextPoid)).filter fun it => it.poid == s.nextPoid) =
        (((s.items.filter fun it => it.poid == id).map fun row =>
          ({ item_id := row.itemid, quantity := resolve_qty row,
             estimated_price := some (resolve_price row),
             item_approval := row.approval } : NewItem)).map
            (newItemRow s.nextPoid)) := by
      rw [List.filter_eq_self]
      intro a ha
      obtain ⟨x, hx, rfl⟩ := List.mem_map.mp ha
      simp [newItemRow]
    rw [h1, h2, List.nil_append, List.map_map]
    rfl
  · intro o ho hpo
    rw [List.map_append] at ho
    rcases List.mem_append.mp ho with h1 | h2
    · obtain ⟨a, ha, rfl⟩ := List.mem_map.mp h1
      by_cases hb : a.poid = id
      · simp [hb]
      · rw [if_neg (by simp [hb])] at hpo ⊢
        exact absurd hpo hb
    · simp only [List.map_cons, List.map_nil, List.mem_singleton] at h2
      subst h2
      rw [if_neg (by simp [newOrderRow, hne])] at hpo
      exact absurd hpo (by simp [newOrderRow, hne])

/-- C1 witness: accepting order 5 of the concrete store returns the fresh
id 6 ≠ 5 and marks order 5 Accepted by AMAS. -/
theorem accept_clones_witness :
    ∃ newId s2, accept_proposed_po storeB 0 5 = (some newId, s2) ∧
      newId ≠ 5 ∧ ∀ o ∈ s2.orders, o.poid = 5 →
        o.status = "Accepted by AMAS" := by
  obtain ⟨n, s2, h1, h2, h3, h4, h5⟩ :=
    accept_clones_and_closes storeB 0 5 poB ⟨by decide, by decide⟩ (by decide)
  exact ⟨n, s2, h1, h2, h5⟩

/-- C9 counterexample: modifying alice's order 1 as caller bob produces the
clone 2 whose created_by is bob, not the original's created_by alice. -/
theorem modify_createdby_cx :
    (modify_proposed_po storeM 0 1 none [] "bob").1 = some 2 ∧
    ((modify_proposed_po storeM 0 1 none [] "bob").2.orders.find?
        (fun o => o.poid == 2)).map PORow.createdby = some "bob" ∧
    (storeM.orders.find? (fun o => o.poid == 1)).map PORow.createdby =
      some "alice" ∧
    "bob" ≠ "alice" := by
  refine ⟨rfl, rfl, rfl, by decide⟩

/-- C9 (amended): modifying an existing proposed order returns a fresh id
distinct from the source id; the new order row carries the original
supplier, the caller-supplied delivery date, the caller-supplied user email
as created_by, `originalpoid` = the source id and the source approval; the
new order's item rows are exactly the caller-supplied replacement items
(stored verbatim, the Resolution Policy is never invoked); and afterwards
every row with the source id has status Modified by AMAS. -/
theorem modify_clones_and_closes (s : Store) (now : Int) (id : Nat)
    (nd : Option Int) (nits : List NewItem) (ue : String) (po : PORow)
    (hwf : WFStore s)
    (hfind : s.orders.find? (fun o => o.poid == id) = some po) :
    ∃ newId s2, modify_proposed_po s now id nd nits ue = (some newId, s2) ∧
      newId ≠ id ∧
      (∃ r ∈ s2.orders, r.poid = newId ∧ r.supplierid = po.supplierid ∧
        r.expecteddelivery = nd ∧ r.createdby = ue ∧
        r.originalpoid = some id ∧ r.approval = po.approval) ∧
      (s2.items.filter fun it => it.poid == newId) =
        nits.map (newItemRow newId) ∧
      (∀ o ∈ s2.orders, o.poid = id → o.status = "Modified by AMAS") := by
  have hmem : po ∈ s.orders := List.mem_of_find?_eq_some hfind
  have hpid : po.poid = id := by simpa using List.find?_some hfind
  have hlt : id < s.nextPoid := hpid ▸ hwf.1 po hmem
  have hne : s.nextPoid ≠ id := by omega
  have hmod : modify_proposed_po s now id nd nits ue =
      (some s.nextPoid,
        { s with
          orders := (s.orders ++
            [newOrderRow s.nextPoid now po.supplierid nd ue (some id)
              po.approval]).map fun o =>
                if o.poid == id then { o with status := "Modified by AMAS" }
                else o
          items := s.items ++ nits.map (newItemRow s.nextPoid)
          nextPoid := s.nextPoid + 1 }) := by
    simp only [modify_proposed_po, hfind, create_manual_po, updateStatus]
  refine ⟨s.nextPoid, _, hmod, hne, ?_, ?_, ?_⟩
  · refine ⟨newOrderRow s.nextPoid now po.supplierid nd ue (some id)
      po.approval, ?_, rfl, rfl, rfl, rfl, rfl, rfl⟩
    rw [List.map_append]
    refine List.mem_append_right _ ?_
    simp only [List.map_cons, List.map_nil]
    rw [if_neg (by simp [newOrderRow, hne])]
    exact List.mem_singleton.mpr rfl
  · rw [List.filter_append]
    have h1 : (s.items.filter fun it => it.poid == s.nextPoid) = [] := by
      rw [List.filter_eq_nil_iff]
      intro it hit
      have := hwf.2 it hit
      simp
      omega
    have h2 : ((nits.map (newItemRow s.nextPoid)).filter
        fun it => it.poid == s.nextPoid) = nits.map (newItemRow s.nextPoid) := by
      rw [List.filter_eq_self]
      intro a ha
      obtain ⟨x, hx, rfl⟩ := List.mem_map.mp ha
      simp [newItemRow]
    rw [h1, h2, List.nil_append]
  · intro o ho hpo
    rw [List.map_append] at ho
    rcases List.mem_append.mp ho with h1 | h2
    · obtain ⟨a, ha, rfl⟩ := List.mem_map.mp h1
      by_cases hb : a.poid = id
      · simp [hb]
      · rw [if_neg (by simp [hb])] at hpo ⊢
        exact absurd hpo hb
    · simp only [List.map_cons, List.map_nil, List.mem_singleton] at h2
      subst h2
      rw [if_neg (by simp [newOrderRow, hne])] at hpo
      exact absurd hpo (by simp [newOrderRow, hne])

/-- C9 witness: modifying order 5 of the concrete store as caller u returns
the fresh id 6 ≠ 5, stores the replacement item verbatim and marks order 5
Modified by AMAS. -/
theorem modify_clones_witness :
    ∃ newId s2, modify_proposed_po storeB 0 5 (some 3) [newItemW] "u" =
        (some newId, s2) ∧ newId ≠ 5 ∧
      (s2.items.filter fun it => it.poid == newId) =
        [newItemW].map (newItemRow newId) ∧
      ∀ o ∈ s2.orders, o.poid = 5 → o.status = "Modified by AMAS" := by
  obtain ⟨n, s2, h1, h2, h3, h4, h5⟩ :=
    modify_clones_and_closes storeB 0 5 (some 3) [newItemW] "u" poB
      ⟨by decide, by decide⟩ (by decide)
  exact ⟨n, s2, h1, h2, h4, h5⟩

theorem mem_joinRowsFor_fst {st : Store} {po : PORow}
    {x : PORow × SupplierRow × POItemRow × ItemRow}
    (hx : x ∈ joinRowsFor st po) : x.1 = po := by
  simp only [joinRowsFor, List.mem_flatMap, List.mem_filter, List.mem_map]
    at hx
  obtain ⟨s, hs, poi, hpoi, i, hi, rfl⟩ := hx
  rfl

theorem joinRows_fst_mem {st : Store}
    {x : PORow × SupplierRow × POItemRow × ItemRow}
    (hx : x ∈ joinRows st) : x.1 ∈ st.orders := by
  simp only [joinRows, List.mem_flatMap] at hx
  obtain ⟨po, hpo, hmem⟩ := hx
  rw [mem_joinRowsFor_fst hmem]
  exact hpo

theorem tuple_mem_joinRows {st : Store} {o : PORow} {sup : SupplierRow}
    {poi : POItemRow} {i : ItemRow} (ho : o ∈ st.orders)
    (hs : sup ∈ st.suppliers) (hseq : o.supplierid = some sup.supplierid)
    (hpi : poi ∈ st.items) (hpeq : poi.poid = o.poid)
    (hic : i ∈ st.catalog) (hieq : i.itemid = poi.itemid) :
    (o, sup, poi, i) ∈ joinRows st := by
  simp only [joinRows, List.mem_flatMap]
  refine ⟨o, ho, ?_⟩
  simp only [joinRowsFor, List.mem_flatMap, List.mem_filter, List.mem_map]
  exact ⟨sup, ⟨hs, by simp [hseq]⟩, poi, ⟨hpi, by simp [hpeq]⟩, i,
    ⟨hic, by simp [hieq]⟩, rfl⟩

theorem pairwise_date_mergeSort
    (l : List (PORow × SupplierRow × POItemRow × ItemRow)) :
    (l.mergeSort dateDescLe).Pairwise
      fun a b => b.1.orderdate ≤ a.1.orderdate := by
  have htrans : ∀ a b c : PORow × SupplierRow × POItemRow × ItemRow,
      dateDescLe a b → dateDescLe b c → dateDescLe a c := by
    intro a b c hab hbc
    simp only [dateDescLe, decide_eq_true_eq] at *
    omega
  have htotal : ∀ a b : PORow × SupplierRow × POItemRow × ItemRow,
      dateDescLe a b || dateDescLe b a := by
    intro a b
    simp only [dateDescLe, Bool.or_eq_true, decide_eq_true_eq]
    omega
  have hs := List.sorted_mergeSort htrans htotal l
  exact hs.imp fun h => by
    simpa [dateDescLe, decide_eq_true_eq] using h

theorem contains_false_iff_not_mem {l : List String} {a : String} :
    l.contains a = false ↔ a ∉ l := by
  constructor
  · intro h hm
    rw [contains_true_iff_mem.mpr hm] at h
    cases h
  · intro h
    cases hc : l.contains a
    · rfl
    · exact absurd (contains_true_iff_mem.mp hc) h

/-- C5 counterexample: a store holding one Pending order with a valid
supplier but zero item rows — the order's status is outside the archived
set, yet the inner join keeps it out of the active listing. -/
theorem listing_partition_cx :
    storeP.orders.map PORow.status = ["Pending"] ∧
    "Pending" ∉ archivedStatuses ∧
    storeP.orders.map PORow.poid = [1] ∧
    ¬ containsOrderActive (get_all_purchase_orders storeP) 1 := by
  refine ⟨rfl, by decide, rfl, ?_⟩
  rintro ⟨r, hr, _⟩
  simp only [get_all_purchase_orders, List.mem_map, List.mem_mergeSort,
    List.mem_filter] at hr
  obtain ⟨t, ⟨htj, _⟩, _⟩ := hr
  simp [joinRows, joinRowsFor, storeP, List.mem_flatMap] at htj

/-- C5 (amended): for an order that joins — it has at least one item row
whose item exists in the catalog, and its supplier id matches a supplier
row — the active listing contains it iff its status is outside
{Completed, Declined, Declined by AMAS, Declined by Supplier}, the archived
listing contains it iff its status is inside that set, and both listings
are ordered by order timestamp descending.  (An order with no joined row,
e.g. zero item rows, appears in neither listing.) -/
theorem listing_partition (st : Store) (o : PORow) (ho : o ∈ st.orders)
    (hnd : (st.orders.map PORow.poid).Nodup)
    (hsup : ∃ sup ∈ st.suppliers, o.supplierid = some sup.supplierid)
    (hitem : ∃ poi ∈ st.items, poi.poid = o.poid ∧
      ∃ i ∈ st.catalog, i.itemid = poi.itemid) :
    (containsOrderActive (get_all_purchase_orders st) o.poid ↔
      o.status ∉ archivedStatuses) ∧
    (containsOrderArchived (get_archived_purchase_orders st) o.poid ↔
      o.status ∈ archivedStatuses) ∧
    (get_all_purchase_orders st).Pairwise
      (fun a b => b.orderdate ≤ a.orderdate) ∧
    (get_archived_purchase_orders st).Pairwise
      (fun a b => b.orderdate ≤ a.orderdate) := by
  obtain ⟨sup, hs, hseq⟩ := hsup
  obtain ⟨poi, hpi, hpeq, i, hic, hieq⟩ := hitem
  have htup : (o, sup, poi, i) ∈ joinRows st :=
    tuple_mem_joinRows ho hs hseq hpi hpeq hic hieq
  refine ⟨?_, ?_, ?_, ?_⟩
  · constructor
    · rintro ⟨r, hr, hrpoid⟩
      simp only [get_all_purchase_orders, List.mem_map, List.mem_mergeSort,
        List.mem_filter] at hr
      obtain ⟨t, ⟨htj, htb⟩, rfl⟩ := hr
      have hfst : t.1 ∈ st.orders := joinRows_fst_mem htj
      have heq : t.1 = o :=
        List.inj_on_of_nodup_map hnd hfst ho hrpoid
      rw [heq] at htb
      simp only [Bool.not_eq_eq_eq_not, Bool.not_true] at htb
      exact contains_false_iff_not_mem.mp htb
    · intro hstat
      have hcontains : archivedStatuses.contains o.status = false :=
        contains_false_iff_not_mem.mpr hstat
      refine ⟨projActive (o, sup, poi, i), ?_, rfl⟩
      simp only [get_all_purchase_orders, List.mem_map, List.mem_mergeSort,
        List.mem_filter]
      exact ⟨(o, sup, poi, i), ⟨htup, by simpa using hcontains⟩, rfl⟩
  · constructor
    · rintro ⟨r, hr, hrpoid⟩
      simp only [get_archived_purchase_orders, List.mem_map,
        List.mem_mergeSort, List.mem_filter] at hr
      obtain ⟨t, ⟨htj, htb⟩, rfl⟩ := hr
      have hfst : t.1 ∈ st.orders := joinRows_fst_mem htj
      have heq : t.1 = o :=
        List.inj_on_of_nodup_map hnd hfst ho hrpoid
      rw [heq] at htb
      exact contains_true_iff_mem.mp htb
    · intro hstat
      refine ⟨projArchived (o, sup, poi, i), ?_, rfl⟩
      simp only [get_archived_purchase_orders, List.mem_map,
        List.mem_mergeSort, List.mem_filter]
      exact ⟨(o, sup, poi, i),
        ⟨htup, contains_true_iff_mem.mpr hstat⟩, rfl⟩
  · exact (pairwise_date_mergeSort _).map projActive fun a b h => h
  · exact (pairwise_date_mergeSort _).map projArchived fun a b h => h

/-- C5 witness: in the concrete joined store the Pending order 1 is in the
active listing and not in the archived one. -/
theorem listing_partition_witness :
    containsOrderActive (get_all_purchase_orders storeJ) 1 ∧
    ¬ containsOrderArchived (get_archived_purchase_orders storeJ) 1 := by
  have h := listing_partition storeJ poJ (by decide) (by decide)
    ⟨supP, by decide, by decide⟩ ⟨itJ, by decide, by decide, itemJ, by decide,
      by decide⟩
  exact ⟨h.1.mpr (by decide), fun hc => absurd (h.2.1.mp hc) (by decide)⟩

theorem sum_map_eq_length {α : Type} (l : List α) (f : α → Nat)
    (h : ∀ a ∈ l, f a = 1) : (l.map f).sum = l.length := by
  induction l with
  | nil => rfl
  | cons a t ih =>
    simp only [List.map_cons, List.sum_cons, h a (List.mem_cons_self a t),
      List.length_cons]
    rw [ih fun x hx => h x (List.mem_cons_of_mem a hx)]
    omega

theorem countP_flatMap_key {α β : Type} (key : α → Nat) (f : α → List β)
    (pk : β → Nat) (hf : ∀ a, ∀ x ∈ f a, pk x = key a) :
    ∀ (l : List α), (l.map key).Nodup → ∀ o ∈ l,
      ((l.flatMap f).countP fun x => pk x == key o) = (f o).length := by
  intro l
  induction l with
  | nil =>
    intro _ o ho
    exact absurd ho (List.not_mem_nil o)
  | cons a t ih =>
    intro hnd o ho
    rw [List.flatMap_cons, List.countP_append]
    rw [List.map_cons, List.nodup_cons] at hnd
    rcases List.mem_cons.mp ho with rfl | hot
    · have h1 : ((t.flatMap f).countP fun x => pk x == key o) = 0 := by
        rw [List.countP_eq_zero]
        intro x hx
        obtain ⟨b, hb, hxb⟩ := List.mem_flatMap.mp hx
        rw [hf b x hxb]
        simp only [beq_iff_eq]
        intro hkeq
        have hmem : key b ∈ List.map key t := List.mem_map_of_mem key hb
        rw [hkeq] at hmem
        exact hnd.1 hmem
      have h2 : ((f o).countP fun x => pk x == key o) = (f o).length := by
        rw [List.countP_eq_length]
        intro x hx
        simp [hf o x hx]
      rw [h1, h2]
      omega
    · have h1 : ((f a).countP fun x => pk x == key o) = 0 := by
        rw [List.countP_eq_zero]
        intro x hx
        rw [hf a x hx]
        simp only [beq_iff_eq]
        intro hkeq
        have hmem : key o ∈ List.map key t := List.mem_map_of_mem key hot
        rw [← hkeq] at hmem
        exact hnd.1 hmem
      rw [h1, ih hnd.2 o hot]
      omega

theorem joinRowsFor_length (st : Store) (o : PORow)
    (hsup1 : (st.suppliers.filter fun sup =>
      o.supplierid == some sup.supplierid).length = 1)
    (hcat1 : ∀ poi ∈ st.items, poi.poid = o.poid →
      (st.catalog.filter fun i => i.itemid == poi.itemid).length = 1) :
    (joinRowsFor st o).length =
      (st.items.filter fun poi => poi.poid == o.poid).length := by
  obtain ⟨sup, hsup⟩ := List.length_eq_one.mp hsup1
  unfold joinRowsFor
  rw [hsup, List.flatMap_cons, List.flatMap_nil, List.append_nil]
  rw [List.length_flatMap]
  apply sum_map_eq_length
  intro poi hpoi
  simp only [Function.comp_apply, List.length_map]
  have hm := List.mem_filter.mp hpoi
  exact hcat1 poi hm.1 (by simpa using hm.2)

theorem countP_filter_joinRows (st : Store) (o : PORow) (ho : o ∈ st.orders)
    (hnd : (st.orders.map PORow.poid).Nodup)
    (b : PORow × SupplierRow × POItemRow × ItemRow → Bool) (bo : Bool)
    (hb : ∀ t : PORow × SupplierRow × POItemRow × ItemRow, t.1 = o →
      b t = bo) :
    (((joinRows st).filter b).countP fun t => t.1.poid == o.poid) =
      if bo then (joinRowsFor st o).length else 0 := by
  rw [List.countP_filter]
  have hcongr : ∀ t ∈ joinRows st,
      ((t.1.poid == o.poid) && b t) = ((t.1.poid == o.poid) && bo) := by
    intro t ht
    by_cases hp : t.1.poid = o.poid
    · have heq : t.1 = o :=
        List.inj_on_of_nodup_map hnd (joinRows_fst_mem ht) ho hp
      rw [hb t heq]
    · have hfalse : (t.1.poid == o.poid) = false := by simp [hp]
      rw [hfalse, Bool.false_and, Bool.false_and]
  rw [List.countP_congr fun x hx => by rw [hcongr x hx]]
  cases bo with
  | false =>
    rw [if_neg (by simp)]
    exact List.countP_eq_zero.mpr fun x hx => by simp
  | true =>
    rw [if_pos rfl]
    simp only [Bool.and_true]
    exact countP_flatMap_key PORow.poid (joinRowsFor st) (fun t => t.1.poid)
      (fun a x hx => by
        show x.1.poid = a.poid
        rw [mem_joinRowsFor_fst hx]) st.orders hnd o ho

/-- C10: both listings join each order to its item rows, supplier and
catalog entry with inner joins, so (for unique ids and resolvable join
partners) an order contributes one result row per item row to the listing
its status selects and none to the other; in particular an order with zero
item rows appears in neither listing. -/
theorem listing_join_counts (st : Store) (o : PORow) (ho : o ∈ st.orders)
    (hnd : (st.orders.map PORow.poid).Nodup)
    (hsup1 : (st.suppliers.filter fun sup =>
      o.supplierid == some sup.supplierid).length = 1)
    (hcat1 : ∀ poi ∈ st.items, poi.poid = o.poid →
      (st.catalog.filter fun i => i.itemid == poi.itemid).length = 1) :
    ((get_all_purchase_orders st).countP fun r => r.poid == o.poid) =
      (if o.status ∈ archivedStatuses then 0
       else (st.items.filter fun poi => poi.poid == o.poid).length) ∧
    ((get_archived_purchase_orders st).countP fun r => r.poid == o.poid) =
      (if o.status ∈ archivedStatuses then
        (st.items.filter fun poi => poi.poid == o.poid).length
       else 0) := by
  have hlen := joinRowsFor_length st o hsup1 hcat1
  constructor
  · have h1 : ((get_all_purchase_orders st).countP
        fun r => r.poid == o.poid) =
        (((joinRows st).filter fun t =>
          !(archivedStatuses.contains t.1.status)).countP
          fun t => t.1.poid == o.poid) := by
      unfold get_all_purchase_orders
      rw [List.countP_map]
      exact (List.mergeSort_perm _ dateDescLe).countP_eq _
    rw [h1, countP_filter_joinRows st o ho hnd
      (fun t => !(archivedStatuses.contains t.1.status))
      (!(archivedStatuses.contains o.status)) (fun t ht => by
        simp only [ht])]
    by_cases harch : o.status ∈ archivedStatuses
    · rw [if_pos harch, contains_true_iff_mem.mpr harch]
      simp
    · rw [if_neg harch, contains_false_iff_not_mem.mpr harch]
      simp [hlen]
  · have h1 : ((get_archived_purchase_orders st).countP
        fun r => r.poid == o.poid) =
        (((joinRows st).filter fun t =>
          archivedStatuses.contains t.1.status).countP
          fun t => t.1.poid == o.poid) := by
      unfold get_archived_purchase_orders
      rw [List.countP_map]
      exact (List.mergeSort_perm _ dateDescLe).countP_eq _
    rw [h1, countP_filter_joinRows st o ho hnd
      (fun t => archivedStatuses.contains t.1.status)
      (archivedStatuses.contains o.status) (fun t ht => by simp only [ht])]
    by_cases harch : o.status ∈ archivedStatuses
    · rw [if_pos harch, contains_true_iff_mem.mpr harch]
      simp [hlen]
    · rw [if_neg harch, contains_false_iff_not_mem.mpr harch]
      simp

/-- C10 witness: in the concrete joined store, the Pending order 1 with one
item row contributes exactly one row to the active listing and none to the
archived one. -/
theorem listing_join_counts_witness :
    ((get_all_purchase_orders storeJ).countP fun r => r.poid == poJ.poid) =
      1 ∧
    ((get_archived_purchase_orders storeJ).countP
      fun r => r.poid == poJ.poid) = 0 := by
  have h := listing_join_counts storeJ poJ (by decide) (by decide) (by decide)
    (by decide)
  constructor
  · rw [h.1, if_neg (by decide)]
    decide
  · rw [h.2, if_neg (by decide)]
